import Mathlib

/-!
# Verification of the mean-reversion pair-trading engine

Shallow embedding of the core trading logic of the repository:

* `src/src/trade/live_pair_trader.py` — class `LivePairTrader`
  (spread, rolling z-score, signal rule, position sizing, paper-trade
  execution and portfolio accounting);
* `src/src/backtest/backtester.py` — class `PairTradingBacktester`
  (pair-data alignment with rolling statistics, fixed-fraction backtest
  loop, and the performance analysis).

Python floats are modelled by exact rationals (`ℚ`) for all portfolio
arithmetic, and by `ℝ` where transcendental functions appear
(`np.log`, `np.sqrt`).  Python `dict[str, float]` price maps are
association lists; a missing key (`KeyError`) and non-finite float
results (NaN/±inf) are modelled by `Option` (`none`).
-/

namespace Mine

/-- Python `dict[str, float]` of prices, keyed by symbol. -/
abbrev PriceMap := List (String × ℚ)

/-- `prices[sym]` on a Python dict: the value at the key, if present. -/
def lookupPrice (sym : String) : PriceMap → Option ℚ
  | [] => none
  | (k, v) :: rest => if k = sym then some v else lookupPrice sym rest

namespace LivePairTrader

/-- Mutable state of a `LivePairTrader`: `portfolio["cash"]`,
`portfolio["positions"][symbol1]`, `portfolio["positions"][symbol2]`,
`self.current_position` and `self.trade_count`. -/
structure TraderState where
  cash : ℚ
  pos1 : ℚ
  pos2 : ℚ
  current_position : Int
  trade_count : ℕ
  deriving Repr, DecidableEq

/-- `LivePairTrader.calculate_spread` (live_pair_trader.py:406-417):
returns `0.0` when fewer than two prices are supplied, otherwise
`np.log(prices[symbol1]) - np.log(prices[symbol2])`.  A `KeyError`
(a two-entry map missing one of the symbols) is modelled by `none`. -/
noncomputable def calculate_spread (s1 s2 : String) (prices : PriceMap) : Option ℝ :=
  if prices.length < 2 then some 0
  else
    match lookupPrice s1 prices, lookupPrice s2 prices with
    | some p1, some p2 => some (Real.log (p1 : ℝ) - Real.log (p2 : ℝ))
    | _, _ => none

/-- `np.mean` of a list of floats. -/
noncomputable def np_mean (xs : List ℝ) : ℝ := xs.sum / xs.length

/-- `np.std` of a list of floats: numpy's default is the population
standard deviation (`ddof=0`, divisor `n`). -/
noncomputable def np_std (xs : List ℝ) : ℝ :=
  Real.sqrt (((xs.map (fun x => (x - np_mean xs) ^ 2)).sum) / xs.length)

/-- The aligned historical spreads of `calculate_z_score`
(live_pair_trader.py:429-434): `log(h1[i]) - log(h2[i])` for every
index present in both histories. -/
noncomputable def spread_history (h1 h2 : List ℚ) : List ℝ :=
  (h1.zip h2).map (fun p => Real.log (p.1 : ℝ) - Real.log (p.2 : ℝ))

/-- Python slice `xs[-lookback:]` (the last `lookback` elements;
`xs[-0:]` is the whole list). -/
def last_slice (lookback : ℕ) (xs : List ℝ) : List ℝ :=
  if lookback = 0 then xs else xs.drop (xs.length - lookback)

/-- `recent_spreads = spreads[-self.lookback_period:]`
(live_pair_trader.py:441). -/
noncomputable def recent_spreads (lookback : ℕ) (h1 h2 : List ℚ) : List ℝ :=
  last_slice lookback (spread_history h1 h2)

/-- `LivePairTrader.calculate_z_score` (live_pair_trader.py:419-453):
`0.0` when the stored history is shorter than `lookback_period`, `0.0`
when the aligned spreads are fewer than `lookback_period`, `0.0` when
the standard deviation of the recent spreads is zero, and otherwise
`(current_spread - mean) / std`. -/
noncomputable def calculate_z_score (lookback : ℕ) (h1 h2 : List ℚ)
    (current_spread : ℝ) : ℝ :=
  if h1.length < lookback then 0
  else
    let spreads := spread_history h1 h2
    if spreads.length < lookback then 0
    else
      let recent := last_slice lookback spreads
      let mean := np_mean recent
      let std := np_std recent
      if std = 0 then 0 else (current_spread - mean) / std

/-- `LivePairTrader.generate_signal` (live_pair_trader.py:455-462):
`-1` (short the spread) above the threshold, `1` (long the spread)
below the negated threshold, `0` otherwise. -/
noncomputable def generate_signal (z_threshold z_score : ℝ) : Int :=
  if z_score > z_threshold then -1
  else if z_score < -z_threshold then 1
  else 0

/-- `LivePairTrader.calculate_position_sizes` (live_pair_trader.py:464-492),
with the portfolio value passed explicitly (as `execute_paper_trade`
does).  Returns `(0, 0)` for an empty price map or when
`abs(current_value) < 50`; otherwise allocates 10% of
`abs(current_value)`, half per leg, at the leg's price, guarding
non-positive prices with zero units.  A `KeyError` (non-empty map
missing a symbol) is modelled by `none`. -/
def calculate_position_sizes (s1 s2 : String) (prices : PriceMap)
    (current_value : ℚ) : Option (ℚ × ℚ) :=
  if prices.isEmpty then some (0, 0)
  else if |current_value| < 50 then some (0, 0)
  else
    match lookupPrice s1 prices, lookupPrice s2 prices with
    | some p1, some p2 =>
        some (if p1 > 0 then |current_value| * (1 / 10) / 2 / p1 else 0,
              if p2 > 0 then |current_value| * (1 / 10) / 2 / p2 else 0)
    | _, _ => none

/-- `LivePairTrader.calculate_portfolio_value` (live_pair_trader.py:595-605):
cash plus, for each of the two position entries whose symbol is in the
price map, units times price. -/
def calculate_portfolio_value (s1 s2 : String) (prices : PriceMap)
    (st : TraderState) : ℚ :=
  if prices.isEmpty then st.cash
  else
    st.cash
      + (match lookupPrice s1 prices with
         | some p1 => st.pos1 * p1
         | none => 0)
      + (match lookupPrice s2 prices with
         | some p2 => st.pos2 * p2
         | none => 0)

/-- `LivePairTrader.close_positions` (live_pair_trader.py:575-593):
no-op on an empty price map; otherwise each leg whose symbol is priced
strictly positively is liquidated into cash, and both positions and
`current_position` are reset to zero. -/
def close_positions (s1 s2 : String) (prices : PriceMap)
    (st : TraderState) : TraderState :=
  if prices.isEmpty then st
  else
    let c1 := match lookupPrice s1 prices with
      | some p1 => if p1 > 0 then st.pos1 * p1 else 0
      | none => 0
    let c2 := match lookupPrice s2 prices with
      | some p2 => if p2 > 0 then st.pos2 * p2 else 0
      | none => 0
    { st with cash := st.cash + c1 + c2, pos1 := 0, pos2 := 0,
              current_position := 0 }

/-- The body of `execute_paper_trade` after the close of any existing
position (live_pair_trader.py:504-569): size the new legs from the
current portfolio value, abort on zero sizes, and open the signed
position with a cash change that exactly offsets the cost of the new
legs.  Exceptions inside the `try` block (`KeyError` from the sizer or
the cost lookups; `NameError` on a signal outside `{-1, 0, 1}`, whose
trade record references the unbound `net_cash_change`) are caught and
yield `False` with the state unchanged from the close. -/
def open_new_position (s1 s2 : String) (signal : Int) (prices : PriceMap)
    (st1 : TraderState) : Bool × TraderState :=
  let v := calculate_portfolio_value s1 s2 prices st1
  match calculate_position_sizes s1 s2 prices v with
  | none => (false, st1)
  | some (size1, size2) =>
    if size1 = 0 ∧ size2 = 0 then (false, st1)
    else
      match lookupPrice s1 prices, lookupPrice s2 prices with
      | some p1, some p2 =>
        let cost1 := size1 * p1
        let cost2 := size2 * p2
        if signal = 1 then
          (true, { cash := st1.cash + (-cost1 + cost2), pos1 := size1,
                   pos2 := -size2, current_position := 1,
                   trade_count := st1.trade_count + 1 })
        else if signal = -1 then
          (true, { cash := st1.cash + (cost1 - cost2), pos1 := -size1,
                   pos2 := size2, current_position := -1,
                   trade_count := st1.trade_count + 1 })
        else (false, st1)
      | _, _ => (false, st1)

/-- `LivePairTrader.execute_paper_trade` (live_pair_trader.py:494-573).
Signal `0` returns `False` immediately.  Otherwise any open position is
closed first, then `open_new_position` sizes and opens the new one. -/
def execute_paper_trade (s1 s2 : String) (signal : Int) (prices : PriceMap)
    (st : TraderState) : Bool × TraderState :=
  if signal = 0 then (false, st)
  else
    open_new_position s1 s2 signal prices
      (if st.current_position ≠ 0 then close_positions s1 s2 prices st else st)

/-- A sequence of `execute_paper_trade` calls against one price map. -/
def apply_trades (s1 s2 : String) (prices : PriceMap) (signals : List Int)
    (st : TraderState) : TraderState :=
  signals.foldl (fun s sig => (execute_paper_trade s1 s2 sig prices s).2) st

/-- States reachable by the trader: whenever `current_position` is
neutral, both legs are flat.  Holds for the initial state and is
preserved by every trade. -/
def GoodState (st : TraderState) : Prop :=
  st.current_position = 0 → st.pos1 = 0 ∧ st.pos2 = 0

instance (st : TraderState) : Decidable (GoodState st) := by
  unfold GoodState; infer_instance

end LivePairTrader

/-! ## Backtester (`src/src/backtest/backtester.py`)

Pandas semantics used by the embedding: `pd.DataFrame({a: s1, b: s2})`
aligns the two close-price series on the *union* of their timestamp
indexes, filling missing entries with NaN; `rolling(window=20)`
statistics are NaN until 20 non-NaN observations are in the window
(`min_periods` defaults to the window size); `rolling(20).std()` is the
*sample* standard deviation (pandas default `ddof=1`); arithmetic on
NaN yields NaN and every comparison with NaN is `False`.  NaN (and the
other non-finite floats, which arise only from division by zero) are
modelled by `none`. -/

/-- A float that may be NaN/±inf: `none` models a non-finite value. -/
abbrev OQ := Option ℚ

/-- Float addition with NaN propagation. -/
def oadd : OQ → OQ → OQ
  | some a, some b => some (a + b)
  | _, _ => none

/-- Float subtraction with NaN propagation. -/
def osub : OQ → OQ → OQ
  | some a, some b => some (a - b)
  | _, _ => none

/-- Float multiplication with NaN propagation. -/
def omul : OQ → OQ → OQ
  | some a, some b => some (a * b)
  | _, _ => none

/-- Float division with NaN propagation; division by zero produces a
non-finite float (±inf or NaN), modelled by `none`. -/
def odiv : OQ → OQ → OQ
  | some a, some b => if b = 0 then none else some (a / b)
  | _, _ => none

/-- `x > 0` on floats: `False` whenever `x` is NaN. -/
def opos : OQ → Bool
  | some a => decide (0 < a)
  | none => false

namespace PairTradingBacktester

/-- A stored close-price series: `(timestamp, close)` rows, as returned
by `CryptoAnalyzer.get_data_as_dataframe` (indexed by timestamp, sorted
ascending, unique timestamps). -/
abbrev Series := List (ℕ × ℚ)

/-- `series.loc[ts]`: the close price at a timestamp, if present. -/
def atTime (ts : ℕ) : Series → Option ℚ
  | [] => none
  | (t, v) :: rest => if t = ts then some v else atTime ts rest

/-- Insert a number into a sorted list (used to model the sorted union
index produced by pandas alignment). -/
def insertSorted (n : ℕ) : List ℕ → List ℕ
  | [] => [n]
  | m :: ms => if n ≤ m then n :: m :: ms else m :: insertSorted n ms

/-- Sort a list of timestamps ascending. -/
def sortNat (l : List ℕ) : List ℕ := l.foldr insertSorted []

/-- The union index of the pandas alignment: all timestamps of either
series, deduplicated and sorted ascending. -/
def unionIndex (s1 s2 : Series) : List ℕ :=
  sortNat ((s1.map Prod.fst ++ s2.map Prod.fst).dedup)

/-- Mean of a window of floats. -/
def mean_q (xs : List ℚ) : ℚ := xs.sum / xs.length

/-- Sum of squared deviations from the mean, `Σ (x - mean)²`. -/
def dev_sq_sum (xs : List ℚ) : ℚ :=
  (xs.map (fun x => (x - mean_q xs) ^ 2)).sum

/-- Pandas sample variance (default `ddof=1`, divisor `n - 1`), the
square of what `rolling(20).std()` computes on a full window. -/
def sampleVar (xs : List ℚ) : ℚ := dev_sq_sum xs / ((xs.length : ℚ) - 1)

/-- The value of `combined["price_ratio"].rolling(window=20).std()` on
one full window: the *sample* standard deviation of the window. -/
noncomputable def rolling_ratio_std (xs : List ℚ) : ℝ :=
  Real.sqrt ((sampleVar xs : ℚ) : ℝ)

/-- Modelled from the spec's words (§4.1 numeric contract): the
population standard deviation (divisor `n`) the spec asserts the
backtester's rolling `ratio_std` uses.  Kept for comparison with
`rolling_ratio_std`, the convention the source actually uses. -/
noncomputable def spec_population_std (xs : List ℚ) : ℝ :=
  Real.sqrt ((dev_sq_sum xs / (xs.length : ℚ) : ℚ) : ℝ)

/-- The rolling window of `ratios` ending at index `i`, when it has 20
observations and none of them is NaN (`min_periods = window = 20`). -/
def rollingWindow (i : ℕ) (ratios : List OQ) : Option (List ℚ) :=
  if i + 1 < 20 then none
  else
    let w := (ratios.take (i + 1)).drop (i + 1 - 20)
    if w.all Option.isSome then some (w.map (fun o => o.getD 0)) else none

/-- One aligned row of `get_pair_data`'s combined frame: timestamp, the
two close prices (NaN where a symbol has no bar at that timestamp), the
price ratio, and the full rolling window ending at this row (from which
`ratio_mean`, `ratio_std` and `z_score` derive). -/
structure Row where
  ts : ℕ
  p1 : OQ
  p2 : OQ
  ratio : OQ
  win : Option (List ℚ)
  deriving Repr, DecidableEq

/-- The row's `ratio_std` column: sample standard deviation of the
window, NaN while the window is incomplete. -/
noncomputable def Row.ratio_std (r : Row) : Option ℝ :=
  r.win.map (fun w => rolling_ratio_std w)

/-- The row's `z_score` column, `(ratio - ratio_mean) / ratio_std`:
NaN while the window is incomplete or the ratio is NaN, and NaN when
the window variance is zero (0/0). -/
noncomputable def Row.z (r : Row) : Option ℝ :=
  match r.ratio, r.win with
  | some q, some w =>
      if sampleVar w = 0 then none
      else some (((q - mean_q w : ℚ) : ℝ) / Real.sqrt ((sampleVar w : ℚ) : ℝ))
  | _, _ => none

/-- `PairTradingBacktester.get_pair_data` (backtester.py:16-37): empty
output when either input series is empty; otherwise the union-aligned
frame with `price_ratio` and the rolling statistics. -/
def get_pair_data (s1 s2 : Series) : List Row :=
  if s1.isEmpty || s2.isEmpty then []
  else
    let tss := unionIndex s1 s2
    let ratios := tss.map (fun t => odiv (atTime t s1) (atTime t s2))
    tss.mapIdx (fun i t =>
      { ts := t, p1 := atTime t s1, p2 := atTime t s2,
        ratio := odiv (atTime t s1) (atTime t s2),
        win := rollingWindow i ratios })

/-- `PairTradingBacktester.calculate_position_sizes` (backtester.py:39-44):
equal-dollar units per leg, `capital / price`. -/
def calculate_position_sizes (p1 p2 : OQ) (capital : ℚ) : OQ × OQ :=
  (odiv (some capital) p1, odiv (some capital) p2)

/-- Portfolio of the backtest loop: cash, units of each leg, the trade
count and the recorded per-bar portfolio values. -/
structure BPortfolio where
  cash : OQ
  u1 : OQ
  u2 : OQ
  trade_count : ℕ
  values : List OQ
  deriving Repr, DecidableEq

/-- Initialization of `backtest_mean_reversion` (backtester.py:58-71):
buy $50 of each leg at the bar-0 prices and set cash to `0`
("All cash invested"), regardless of `initial_capital`. -/
def bt_init (r0 : Row) : BPortfolio :=
  let sizes := calculate_position_sizes r0.p1 r0.p2 50
  { cash := some 0, u1 := sizes.1, u2 := sizes.2, trade_count := 0, values := [] }

/-- The `z_score > threshold` branch of the loop (backtester.py:97-116):
sell `trade_size_pct` of the symbol1 units, reinvest the proceeds in
symbol2.  No-op when the trade amount is not strictly positive
(including NaN units). -/
def trade_sell1 (pct : ℚ) (row : Row) (p : BPortfolio) : BPortfolio :=
  let ta := omul p.u1 (some pct)
  if opos ta then
    let proceeds := omul ta row.p1
    let units2 := odiv proceeds row.p2
    { cash := osub (oadd p.cash proceeds) (omul units2 row.p2),
      u1 := osub p.u1 ta,
      u2 := oadd p.u2 units2,
      trade_count := p.trade_count + 1,
      values := p.values }
  else p

/-- The `z_score < -threshold` branch of the loop (backtester.py:118-137):
sell `trade_size_pct` of the symbol2 units, reinvest the proceeds in
symbol1. -/
def trade_sell2 (pct : ℚ) (row : Row) (p : BPortfolio) : BPortfolio :=
  let ta := omul p.u2 (some pct)
  if opos ta then
    let proceeds := omul ta row.p2
    let units1 := odiv proceeds row.p1
    { cash := osub (oadd p.cash proceeds) (omul units1 row.p1),
      u1 := oadd p.u1 units1,
      u2 := osub p.u2 ta,
      trade_count := p.trade_count + 1,
      values := p.values }
  else p

/-- One iteration of the backtest loop (backtester.py:74-137): record
the bar's portfolio value, then — unless `i < 20` or the z-score is
NaN — run the threshold rule. -/
noncomputable def bt_bar (threshold pct : ℚ) (i : ℕ) (row : Row)
    (p : BPortfolio) : BPortfolio :=
  let value := oadd (oadd p.cash (omul p.u1 row.p1)) (omul p.u2 row.p2)
  let p1 := { p with values := p.values ++ [value] }
  if i < 20 then p1
  else
    match Row.z row with
    | none => p1
    | some zr =>
        if zr > ((threshold : ℚ) : ℝ) then trade_sell1 pct row p1
        else if zr < -((threshold : ℚ) : ℝ) then trade_sell2 pct row p1
        else p1

/-- The full bar loop over the aligned rows. -/
noncomputable def bt_loop (threshold pct : ℚ) (rows : List Row)
    (p : BPortfolio) : BPortfolio :=
  rows.enum.foldl (fun acc ir => bt_bar threshold pct ir.1 ir.2 acc) p

/-- `PairTradingBacktester.backtest_mean_reversion` (backtester.py:46-139):
`none` (the empty dict `{}`, "No data available for backtesting") when
the aligned frame is empty, otherwise the portfolio produced by the
initialization and the bar loop.  `initial_capital` is written into the
portfolio and immediately overwritten by the $50-per-leg
initialization, so it does not influence the result. -/
noncomputable def backtest_mean_reversion (s1 s2 : Series)
    (initial_capital threshold pct : ℚ) : Option BPortfolio :=
  match get_pair_data s1 s2 with
  | [] => none
  | r0 :: rest => some (bt_loop threshold pct (r0 :: rest) (bt_init r0))

/-- `Series.pct_change()` on the portfolio-value column
(backtester.py:165): NaN first entry, then `(v[i] - v[i-1]) / v[i-1]`
with NaN propagation. -/
def pct_change (vs : List OQ) : List OQ :=
  none :: (vs.tail.zip vs).map (fun bp => odiv (osub bp.1 bp.2) bp.2)

/-- `Series.std()` (pandas default `ddof=1`): NaN on fewer than two
observations, else the sample standard deviation. -/
noncomputable def series_std (xs : List ℚ) : Option ℝ :=
  if xs.length < 2 then none
  else some (Real.sqrt ((sampleVar xs : ℚ) : ℝ))

/-- The `volatility` computation of `analyze_results`
(backtester.py:164-166): sample standard deviation of
`pct_change().dropna()` of the value series, times `24 ** 0.5`,
times `100`. -/
noncomputable def analyze_volatility_pct (vs : List OQ) : Option ℝ :=
  (series_std ((pct_change vs).filterMap id)).map
    (fun s => s * Real.sqrt 24 * 100)

/-- Modelled from the spec's words (§4.5): annualized volatility with
periods-per-year `24 × 365` for hourly bars — the factor the spec
asserts, kept for comparison with `analyze_volatility_pct`. -/
noncomputable def spec_volatility_pct (vs : List OQ) : Option ℝ :=
  (series_std ((pct_change vs).filterMap id)).map
    (fun s => s * Real.sqrt (24 * 365) * 100)

/-- The period-over-period percentage changes of an all-finite value
series, computed directly on the rationals (the clean form of
`pct_change().dropna()`). -/
def returns_q (vs : List ℚ) : List ℚ :=
  (vs.tail.zip vs).map (fun bp => (bp.1 - bp.2) / bp.2)

end PairTradingBacktester

/-! ## Helper lemmas -/

theorem lookupPrice_mem {s : String} {m : PriceMap} {q : ℚ}
    (h : lookupPrice s m = some q) : (s, q) ∈ m := by
  induction m with
  | nil => simp [lookupPrice] at h
  | cons kv rest ih =>
    obtain ⟨k, v⟩ := kv
    by_cases hk : k = s
    · subst hk
      simp [lookupPrice] at h
      subst h
      exact List.mem_cons_self _ _
    · simp only [lookupPrice, if_neg hk] at h
      exact List.mem_cons_of_mem _ (ih h)

theorem two_le_length_of_two_mem {α : Type} {a b : α} {l : List α}
    (ha : a ∈ l) (hb : b ∈ l) (hne : a ≠ b) : 2 ≤ l.length := by
  cases l with
  | nil => cases ha
  | cons x xs =>
    rcases List.mem_cons.mp ha with h1 | h1
    · rcases List.mem_cons.mp hb with h2 | h2
      · exact absurd (h1.trans h2.symm) hne
      · have := List.length_pos_of_mem h2
        simp only [List.length_cons]
        omega
    · have := List.length_pos_of_mem h1
      simp only [List.length_cons]
      omega

theorem lookupPrice_ne_nil {s : String} {m : PriceMap} {q : ℚ}
    (h : lookupPrice s m = some q) : m.isEmpty = false := by
  cases m with
  | nil => simp [lookupPrice] at h
  | cons kv rest => rfl

/-! ## C2 — signal classification -/

/-- C2: `generate_signal` is a pure total function of `(z, threshold)`:
for every threshold `t > 0` it returns `-1` (ShortSpread) for `z > t`,
`1` (LongSpread) for `z < -t` and `0` (Neutral) on the closed band
`-t ≤ z ≤ t` (in particular exactly at `|z| = t`), and it is
monotonically non-increasing in `z` for fixed `t`. -/
theorem generate_signal_classifies (t : ℝ) (ht : 0 < t) :
    (∀ z : ℝ, t < z → LivePairTrader.generate_signal t z = -1) ∧
    (∀ z : ℝ, z < -t → LivePairTrader.generate_signal t z = 1) ∧
    (∀ z : ℝ, -t ≤ z → z ≤ t → LivePairTrader.generate_signal t z = 0) ∧
    (∀ z w : ℝ, z ≤ w →
      LivePairTrader.generate_signal t w ≤ LivePairTrader.generate_signal t z) ∧
    LivePairTrader.generate_signal t t = 0 ∧
    LivePairTrader.generate_signal t (-t) = 0 := by
  refine ⟨?_, ?_, ?_, ?_, ?_, ?_⟩
  · intro z hz
    simp only [LivePairTrader.generate_signal, if_pos hz]
  · intro z hz
    have h1 : ¬ z > t := by linarith
    simp only [LivePairTrader.generate_signal, if_neg h1, if_pos hz]
  · intro z h1 h2
    have h3 : ¬ z > t := by linarith
    have h4 : ¬ z < -t := by linarith
    simp only [LivePairTrader.generate_signal, if_neg h3, if_neg h4]
  · intro z w hzw
    simp only [LivePairTrader.generate_signal]
    split_ifs <;> first | omega | linarith
  · have h3 : ¬ t > t := lt_irrefl t
    have h4 : ¬ t < -t := by linarith
    simp only [LivePairTrader.generate_signal, if_neg h3, if_neg h4]
  · have h3 : ¬ (-t) > t := by linarith
    have h4 : ¬ (-t) < -t := lt_irrefl _
    simp only [LivePairTrader.generate_signal, if_neg h3, if_neg h4]

/-- Witness for C2 at `t = 1`: `z = 2` is classified short and `z = 1`
(the boundary) neutral. -/
theorem generate_signal_classifies_witness :
    LivePairTrader.generate_signal 1 2 = -1 ∧
    LivePairTrader.generate_signal 1 1 = 0 := by
  obtain ⟨hshort, _, hneutral, _, _, _⟩ := generate_signal_classifies 1 (by norm_num)
  exact ⟨hshort 2 (by norm_num), hneutral 1 (by norm_num) (by norm_num)⟩

/-! ## C9 — spread computation -/

/-- C9: with fewer than two prices supplied, `calculate_spread` returns
exactly `0.0` (and does not raise); with both symbols present at prices
`p1, p2 > 0` it returns `ln p1 - ln p2`. -/
theorem calculate_spread_spec (s1 s2 : String) (hne : s1 ≠ s2) :
    (∀ prices : PriceMap, prices.length < 2 →
        LivePairTrader.calculate_spread s1 s2 prices = some 0) ∧
    (∀ (prices : PriceMap) (p1 p2 : ℚ),
        lookupPrice s1 prices = some p1 → lookupPrice s2 prices = some p2 →
        0 < p1 → 0 < p2 →
        LivePairTrader.calculate_spread s1 s2 prices
          = some (Real.log (p1 : ℝ) - Real.log (p2 : ℝ))) := by
  constructor
  · intro prices hlen
    simp only [LivePairTrader.calculate_spread, if_pos hlen]
  · intro prices p1 p2 h1 h2 _ _
    have hmem1 := lookupPrice_mem h1
    have hmem2 := lookupPrice_mem h2
    have hpair : (s1, p1) ≠ (s2, p2) := fun hh => hne (congrArg Prod.fst hh)
    have hlen : 2 ≤ prices.length := two_le_length_of_two_mem hmem1 hmem2 hpair
    have hnot : ¬ prices.length < 2 := by omega
    simp only [LivePairTrader.calculate_spread, if_neg hnot, h1, h2]

/-- Witness for C9: a concrete two-entry price map yields
`ln 3 - ln 2`, and the empty map yields `0`. -/
theorem calculate_spread_spec_witness :
    LivePairTrader.calculate_spread "A" "B" [("A", 3), ("B", 2)]
        = some (Real.log 3 - Real.log 2) ∧
    LivePairTrader.calculate_spread "A" "B" [] = some 0 := by
  obtain ⟨hzero, hfull⟩ := calculate_spread_spec "A" "B" (by decide)
  constructor
  · have h := hfull [("A", 3), ("B", 2)] 3 2 (by decide) (by decide)
      (by norm_num) (by norm_num)
    simpa using h
  · exact hzero [] (by decide)

/-! ## C10 — a Neutral signal never closes an open position -/

/-- C10: `execute_paper_trade` with signal `0` returns `False`
immediately and leaves the whole trader state (cash, both positions,
`current_position`, trade count) unchanged; consequently, whenever the
z-score is inside the neutral band `|z| ≤ t`, the generated signal is
`0` and the trading-loop step never liquidates an open position. -/
theorem execute_paper_trade_neutral_noop (s1 s2 : String) (t z : ℝ)
    (hz : |z| ≤ t) (prices : PriceMap) (st : LivePairTrader.TraderState) :
    LivePairTrader.execute_paper_trade s1 s2 0 prices st = (false, st) ∧
    LivePairTrader.execute_paper_trade s1 s2
        (LivePairTrader.generate_signal t z) prices st = (false, st) := by
  have habs := abs_le.mp hz
  have h3 : ¬ z > t := by linarith [habs.2]
  have h4 : ¬ z < -t := by linarith [habs.1]
  have hsig : LivePairTrader.generate_signal t z = 0 := by
    simp only [LivePairTrader.generate_signal, if_neg h3, if_neg h4]
  constructor
  · simp [LivePairTrader.execute_paper_trade]
  · rw [hsig]
    simp [LivePairTrader.execute_paper_trade]

/-- Witness for C10 at `t = 1`, `z = 0`, a concrete price map and
state. -/
theorem execute_paper_trade_neutral_noop_witness :
    LivePairTrader.execute_paper_trade "A" "B"
        (LivePairTrader.generate_signal 1 0) [("A", 2), ("B", 4)]
        ⟨100, 3, -1, 1, 2⟩ = (false, ⟨100, 3, -1, 1, 2⟩) :=
  (execute_paper_trade_neutral_noop "A" "B" 1 0 (by norm_num)
    [("A", 2), ("B", 4)] ⟨100, 3, -1, 1, 2⟩).2

/-! ## C8 — position-sizing guards -/

/-- C8 counterexample: the live sizer is *not* total on every price
map — a non-empty map missing one of the two symbols raises `KeyError`
(`prices[symbol]` at live_pair_trader.py:487 with the `$50` guard
passed), modelled as `none`. -/
theorem calculate_position_sizes_keyerror :
    LivePairTrader.calculate_position_sizes "A" "B" [("A", 100)] 100
      = none := by decide

/-- C8 (amended): for every price map and value `v` with `|v| < 50`
the sizer returns zero units for both legs, the empty map always sizes
to zero, and whenever both symbols are priced the sizer succeeds,
returning zero units for a leg priced `≤ 0` (instead of dividing by
it) and `|v| · 10% / 2 / price` units for a positively priced leg.
(Totality on arbitrary maps fails only in the `KeyError` case of the
counterexample.) -/
theorem calculate_position_sizes_guards (s1 s2 : String) :
    (∀ (prices : PriceMap) (v : ℚ), |v| < 50 →
        LivePairTrader.calculate_position_sizes s1 s2 prices v = some (0, 0)) ∧
    (∀ v : ℚ,
        LivePairTrader.calculate_position_sizes s1 s2 [] v = some (0, 0)) ∧
    (∀ (prices : PriceMap) (v p1 p2 : ℚ),
        lookupPrice s1 prices = some p1 → lookupPrice s2 prices = some p2 →
        ¬ |v| < 50 →
        ∃ u1 u2 : ℚ,
          LivePairTrader.calculate_position_sizes s1 s2 prices v
              = some (u1, u2) ∧
          (p1 ≤ 0 → u1 = 0) ∧ (p2 ≤ 0 → u2 = 0) ∧
          (0 < p1 → u1 = |v| * (1 / 10) / 2 / p1) ∧
          (0 < p2 → u2 = |v| * (1 / 10) / 2 / p2)) := by
  refine ⟨?_, ?_, ?_⟩
  · intro prices v hv
    by_cases hemp : prices.isEmpty
    · simp only [LivePairTrader.calculate_position_sizes, if_pos hemp]
    · simp only [LivePairTrader.calculate_position_sizes, if_neg hemp, if_pos hv]
  · intro v
    simp [LivePairTrader.calculate_position_sizes]
  · intro prices v p1 p2 h1 h2 hv
    have hemp : prices.isEmpty = false := lookupPrice_ne_nil h1
    refine ⟨(if p1 > 0 then |v| * (1 / 10) / 2 / p1 else 0),
            (if p2 > 0 then |v| * (1 / 10) / 2 / p2 else 0), ?_, ?_, ?_, ?_, ?_⟩
    · simp only [LivePairTrader.calculate_position_sizes, hemp,
        Bool.false_eq_true, if_false, if_neg hv, h1, h2]
    · intro hp1
      have : ¬ p1 > 0 := by linarith
      simp only [if_neg this]
    · intro hp2
      have : ¬ p2 > 0 := by linarith
      simp only [if_neg this]
    · intro hp1
      simp only [if_pos hp1]
    · intro hp2
      simp only [if_pos hp2]

/-! ## C3 — rolling z-score sentinels -/

/-- C3: for every positive lookback, `calculate_z_score` returns
exactly `0.0` whenever fewer than `lookback` aligned history samples
exist, and — with enough samples — the recent-spread window has exactly
`lookback` entries, the z-score is exactly `0.0` whenever the standard
deviation of those spreads is zero (e.g. constant-valued history), and
otherwise it is `(current_spread - mean) / std` of the last `lookback`
spreads.  The function is total: neither degenerate case escapes as an
exception. -/
theorem calculate_z_score_sentinels (lb : ℕ) (h1 h2 : List ℚ) (cs : ℝ)
    (hlb : 1 ≤ lb) :
    ((h1.zip h2).length < lb →
        LivePairTrader.calculate_z_score lb h1 h2 cs = 0) ∧
    (lb ≤ (h1.zip h2).length →
      (LivePairTrader.recent_spreads lb h1 h2).length = lb ∧
      (LivePairTrader.np_std (LivePairTrader.recent_spreads lb h1 h2) = 0 →
        LivePairTrader.calculate_z_score lb h1 h2 cs = 0) ∧
      (LivePairTrader.np_std (LivePairTrader.recent_spreads lb h1 h2) ≠ 0 →
        LivePairTrader.calculate_z_score lb h1 h2 cs =
          (cs - LivePairTrader.np_mean (LivePairTrader.recent_spreads lb h1 h2)) /
            LivePairTrader.np_std (LivePairTrader.recent_spreads lb h1 h2))) := by
  have hsp : (LivePairTrader.spread_history h1 h2).length = (h1.zip h2).length :=
    List.length_map _ _
  constructor
  · intro hlt
    by_cases hh1 : h1.length < lb
    · simp only [LivePairTrader.calculate_z_score, if_pos hh1]
    · have hsl : (LivePairTrader.spread_history h1 h2).length < lb := by
        rw [hsp]; exact hlt
      simp only [LivePairTrader.calculate_z_score, if_neg hh1, if_pos hsl]
  · intro hge
    have hzle : (h1.zip h2).length ≤ h1.length := by
      rw [List.length_zip]; exact Nat.min_le_left _ _
    have hh1 : ¬ h1.length < lb := by omega
    have hh2 : ¬ (LivePairTrader.spread_history h1 h2).length < lb := by
      rw [hsp]; omega
    have hlen : (LivePairTrader.recent_spreads lb h1 h2).length = lb := by
      unfold LivePairTrader.recent_spreads LivePairTrader.last_slice
      rw [if_neg (by omega : ¬ lb = 0), List.length_drop, hsp]
      omega
    refine ⟨hlen, ?_, ?_⟩
    · intro hstd
      unfold LivePairTrader.recent_spreads at hstd
      simp only [LivePairTrader.calculate_z_score, if_neg hh1, if_neg hh2,
        if_pos hstd]
    · intro hstd
      unfold LivePairTrader.recent_spreads at hstd
      simp only [LivePairTrader.calculate_z_score, if_neg hh1, if_neg hh2,
        if_neg hstd]
      unfold LivePairTrader.recent_spreads
      rfl

/-- Witness for C3: a one-sample history against lookback 3 yields 0,
and a constant two-sample history against lookback 2 (zero standard
deviation) yields 0. -/
theorem calculate_z_score_sentinels_witness :
    LivePairTrader.calculate_z_score 3 [5] [7] 2 = 0 ∧
    LivePairTrader.calculate_z_score 2 [2, 3] [2, 3] 5 = 0 := by
  constructor
  · exact (calculate_z_score_sentinels 3 [5] [7] 2 (by norm_num)).1 (by simp)
  · have h := (calculate_z_score_sentinels 2 [2, 3] [2, 3] 5 (by norm_num)).2
      (by simp)
    refine h.2.1 ?_
    simp [LivePairTrader.recent_spreads, LivePairTrader.spread_history,
      LivePairTrader.last_slice, LivePairTrader.np_std, LivePairTrader.np_mean]

/-! ## C1 — portfolio value conservation -/

/-- With both symbols priced, the portfolio value is
`cash + pos1·p1 + pos2·p2`. -/
theorem calculate_portfolio_value_eq {s1 s2 : String} {prices : PriceMap}
    {p1 p2 : ℚ} (h1 : lookupPrice s1 prices = some p1)
    (h2 : lookupPrice s2 prices = some p2)
    (st : LivePairTrader.TraderState) :
    LivePairTrader.calculate_portfolio_value s1 s2 prices st
      = st.cash + st.pos1 * p1 + st.pos2 * p2 := by
  have hempty : prices.isEmpty = false := lookupPrice_ne_nil h1
  simp [LivePairTrader.calculate_portfolio_value, hempty, h1, h2]

/-- With both symbols priced strictly positively, closing liquidates
both legs into cash at those prices and flattens the state. -/
theorem close_positions_eq {s1 s2 : String} {prices : PriceMap}
    {p1 p2 : ℚ} (h1 : lookupPrice s1 prices = some p1)
    (h2 : lookupPrice s2 prices = some p2)
    (hp1 : 0 < p1) (hp2 : 0 < p2) (st : LivePairTrader.TraderState) :
    LivePairTrader.close_positions s1 s2 prices st
      = { cash := st.cash + st.pos1 * p1 + st.pos2 * p2, pos1 := 0, pos2 := 0,
          current_position := 0, trade_count := st.trade_count } := by
  have hempty : prices.isEmpty = false := lookupPrice_ne_nil h1
  simp [LivePairTrader.close_positions, hempty, h1, h2, hp1, hp2]

/-- With both symbols priced strictly positively, the live sizer
returns `(0,0)` below the `$50` floor and the 10%-split sizes above
it. -/
theorem calculate_position_sizes_eq {s1 s2 : String} {prices : PriceMap}
    {p1 p2 : ℚ} (h1 : lookupPrice s1 prices = some p1)
    (h2 : lookupPrice s2 prices = some p2)
    (hp1 : 0 < p1) (hp2 : 0 < p2) (v : ℚ) :
    LivePairTrader.calculate_position_sizes s1 s2 prices v
      = some (if |v| < 50 then 0 else |v| * (1 / 10) / 2 / p1,
              if |v| < 50 then 0 else |v| * (1 / 10) / 2 / p2) := by
  have hempty : prices.isEmpty = false := lookupPrice_ne_nil h1
  by_cases hv : |v| < 50
  · simp [LivePairTrader.calculate_position_sizes, hempty, hv]
  · simp [LivePairTrader.calculate_position_sizes, hempty, hv, h1, h2, hp1, hp2]

/-- Opening from a flat state preserves the mark-to-market value and
reachability. -/
theorem open_new_position_preserves {s1 s2 : String} {prices : PriceMap}
    {p1 p2 : ℚ} (h1 : lookupPrice s1 prices = some p1)
    (h2 : lookupPrice s2 prices = some p2)
    (hp1 : 0 < p1) (hp2 : 0 < p2) (signal : Int)
    (st1 : LivePairTrader.TraderState)
    (hf1 : st1.pos1 = 0) (hf2 : st1.pos2 = 0) :
    LivePairTrader.calculate_portfolio_value s1 s2 prices
        (LivePairTrader.open_new_position s1 s2 signal prices st1).2
      = LivePairTrader.calculate_portfolio_value s1 s2 prices st1 ∧
    LivePairTrader.GoodState
      (LivePairTrader.open_new_position s1 s2 signal prices st1).2 := by
  have hgood1 : LivePairTrader.GoodState st1 := fun _ => ⟨hf1, hf2⟩
  set v := LivePairTrader.calculate_portfolio_value s1 s2 prices st1 with hvdef
  by_cases hv : |v| < 50
  · have hres : LivePairTrader.open_new_position s1 s2 signal prices st1
        = (false, st1) := by
      simp only [LivePairTrader.open_new_position,
        calculate_position_sizes_eq h1 h2 hp1 hp2, ← hvdef, if_pos hv]
      simp
    rw [hres]
    exact ⟨rfl, hgood1⟩
  · have habs : (0 : ℚ) < |v| := lt_of_lt_of_le (by norm_num) (not_lt.mp hv)
    have hsz1 : (0 : ℚ) < |v| * (1 / 10) / 2 / p1 := by positivity
    have hsz2 : (0 : ℚ) < |v| * (1 / 10) / 2 / p2 := by positivity
    have hcond : ¬ (|v| * (1 / 10) / 2 / p1 = 0 ∧ |v| * (1 / 10) / 2 / p2 = 0) :=
      fun hc => absurd hc.1 (ne_of_gt hsz1)
    by_cases hs1 : signal = 1
    · subst hs1
      have hres : LivePairTrader.open_new_position s1 s2 1 prices st1
          = (true, { cash := st1.cash + (-(|v| * (1 / 10) / 2 / p1 * p1)
                        + |v| * (1 / 10) / 2 / p2 * p2),
                     pos1 := |v| * (1 / 10) / 2 / p1,
                     pos2 := -(|v| * (1 / 10) / 2 / p2),
                     current_position := 1,
                     trade_count := st1.trade_count + 1 }) := by
        simp only [LivePairTrader.open_new_position,
          calculate_position_sizes_eq h1 h2 hp1 hp2, ← hvdef, if_neg hv,
          if_neg hcond, h1, h2]
        simp
      rw [hres]
      constructor
      · rw [calculate_portfolio_value_eq h1 h2, hvdef,
          calculate_portfolio_value_eq h1 h2, hf1, hf2]
        simp only []
        ring
      · intro hcp
        simp at hcp
    · by_cases hs2 : signal = -1
      · subst hs2
        have hres : LivePairTrader.open_new_position s1 s2 (-1) prices st1
            = (true, { cash := st1.cash + (|v| * (1 / 10) / 2 / p1 * p1
                          - |v| * (1 / 10) / 2 / p2 * p2),
                       pos1 := -(|v| * (1 / 10) / 2 / p1),
                       pos2 := |v| * (1 / 10) / 2 / p2,
                       current_position := -1,
                       trade_count := st1.trade_count + 1 }) := by
          simp only [LivePairTrader.open_new_position,
            calculate_position_sizes_eq h1 h2 hp1 hp2, ← hvdef, if_neg hv,
            if_neg hcond, h1, h2]
          norm_num
        rw [hres]
        constructor
        · rw [calculate_portfolio_value_eq h1 h2, hvdef,
            calculate_portfolio_value_eq h1 h2, hf1, hf2]
          simp only []
          ring
        · intro hcp
          simp at hcp
      · have hres : LivePairTrader.open_new_position s1 s2 signal prices st1
            = (false, st1) := by
          simp only [LivePairTrader.open_new_position,
            calculate_position_sizes_eq h1 h2 hp1 hp2, ← hvdef, if_neg hv,
            if_neg hcond, h1, h2, if_neg hs1, if_neg hs2]
        rw [hres]
        exact ⟨rfl, hgood1⟩

/-- One `execute_paper_trade` step from a reachable state preserves the
mark-to-market value and reachability. -/
theorem execute_paper_trade_step {s1 s2 : String} {prices : PriceMap}
    {p1 p2 : ℚ} (h1 : lookupPrice s1 prices = some p1)
    (h2 : lookupPrice s2 prices = some p2)
    (hp1 : 0 < p1) (hp2 : 0 < p2) (signal : Int)
    (st : LivePairTrader.TraderState) (hg : LivePairTrader.GoodState st) :
    LivePairTrader.calculate_portfolio_value s1 s2 prices
        (LivePairTrader.execute_paper_trade s1 s2 signal prices st).2
      = LivePairTrader.calculate_portfolio_value s1 s2 prices st ∧
    LivePairTrader.GoodState
      (LivePairTrader.execute_paper_trade s1 s2 signal prices st).2 := by
  by_cases hs0 : signal = 0
  · subst hs0
    have hres : LivePairTrader.execute_paper_trade s1 s2 0 prices st
        = (false, st) := by simp [LivePairTrader.execute_paper_trade]
    rw [hres]
    exact ⟨rfl, hg⟩
  · have hres : LivePairTrader.execute_paper_trade s1 s2 signal prices st
        = LivePairTrader.open_new_position s1 s2 signal prices
            (if st.current_position ≠ 0
             then LivePairTrader.close_positions s1 s2 prices st else st) := by
      simp only [LivePairTrader.execute_paper_trade, if_neg hs0]
    rw [hres]
    by_cases hcp : st.current_position = 0
    · obtain ⟨hz1, hz2⟩ := hg hcp
      rw [if_neg (by simpa using hcp)]
      exact open_new_position_preserves h1 h2 hp1 hp2 signal st hz1 hz2
    · rw [if_pos hcp, close_positions_eq h1 h2 hp1 hp2]
      have hop := open_new_position_preserves h1 h2 hp1 hp2 signal
        { cash := st.cash + st.pos1 * p1 + st.pos2 * p2, pos1 := 0, pos2 := 0,
          current_position := 0, trade_count := st.trade_count } rfl rfl
      refine ⟨?_, hop.2⟩
      rw [hop.1, calculate_portfolio_value_eq h1 h2,
        calculate_portfolio_value_eq h1 h2]
      simp only []
      ring

/-- C1: for every trade executed by `execute_paper_trade` against a
price map containing both (distinct) symbols at strictly positive
prices, and every reachable trader state, the mark-to-market portfolio
value `cash + Σ holdings·price` is *exactly* equal immediately before
and immediately after the trade (so in particular within any
floating-point tolerance), the resulting state is again reachable, and
the identity persists across any sequence of such trades. -/
theorem execute_paper_trade_conserves_value (s1 s2 : String)
    (prices : PriceMap) (p1 p2 : ℚ) (hne : s1 ≠ s2)
    (h1 : lookupPrice s1 prices = some p1)
    (h2 : lookupPrice s2 prices = some p2)
    (hp1 : 0 < p1) (hp2 : 0 < p2)
    (st : LivePairTrader.TraderState) (hg : LivePairTrader.GoodState st) :
    (∀ signal : Int,
      LivePairTrader.calculate_portfolio_value s1 s2 prices
          (LivePairTrader.execute_paper_trade s1 s2 signal prices st).2
        = LivePairTrader.calculate_portfolio_value s1 s2 prices st ∧
      LivePairTrader.GoodState
        (LivePairTrader.execute_paper_trade s1 s2 signal prices st).2) ∧
    (∀ signals : List Int,
      LivePairTrader.calculate_portfolio_value s1 s2 prices
          (LivePairTrader.apply_trades s1 s2 prices signals st)
        = LivePairTrader.calculate_portfolio_value s1 s2 prices st) := by
  constructor
  · intro signal
    exact execute_paper_trade_step h1 h2 hp1 hp2 signal st hg
  · intro signals
    induction signals generalizing st with
    | nil => rfl
    | cons sig rest ih =>
      have hstep := execute_paper_trade_step h1 h2 hp1 hp2 sig st hg
      calc LivePairTrader.calculate_portfolio_value s1 s2 prices
              (LivePairTrader.apply_trades s1 s2 prices (sig :: rest) st)
          = LivePairTrader.calculate_portfolio_value s1 s2 prices
              (LivePairTrader.apply_trades s1 s2 prices rest
                (LivePairTrader.execute_paper_trade s1 s2 sig prices st).2) := rfl
        _ = LivePairTrader.calculate_portfolio_value s1 s2 prices
              (LivePairTrader.execute_paper_trade s1 s2 sig prices st).2 :=
            ih _ hstep.2
        _ = LivePairTrader.calculate_portfolio_value s1 s2 prices st := hstep.1

/-- Witness for C1: a concrete long-spread trade from the fresh
initial state, followed by a short-spread trade, conserves the
$1000 mark-to-market value exactly. -/
theorem execute_paper_trade_conserves_value_witness :
    LivePairTrader.calculate_portfolio_value "A" "B" [("A", 2), ("B", 4)]
        (LivePairTrader.apply_trades "A" "B" [("A", 2), ("B", 4)] [1, -1]
          ⟨1000, 0, 0, 0, 0⟩)
      = LivePairTrader.calculate_portfolio_value "A" "B" [("A", 2), ("B", 4)]
          ⟨1000, 0, 0, 0, 0⟩ :=
  (execute_paper_trade_conserves_value "A" "B" [("A", 2), ("B", 4)] 2 4
    (by decide) (by decide) (by decide) (by norm_num) (by norm_num)
    ⟨1000, 0, 0, 0, 0⟩ (by decide)).2 [1, -1]

/-- Witness for C8: a portfolio value below the `$50` floor sizes both
legs to zero, and a leg priced `≤ 0` gets zero units while the other
leg is sized normally. -/
theorem calculate_position_sizes_guards_witness :
    LivePairTrader.calculate_position_sizes "A" "B" [("A", 100), ("B", 2)] 40
        = some (0, 0) ∧
    LivePairTrader.calculate_position_sizes "A" "B" [("A", -1), ("B", 2)] 100
        = some (0, 5 / 2) := by
  obtain ⟨g1, _, g3⟩ := calculate_position_sizes_guards "A" "B"
  refine ⟨g1 _ 40 (by norm_num), ?_⟩
  obtain ⟨u1, u2, heq, hz1, _, _, hp2⟩ :=
    g3 [("A", -1), ("B", 2)] 100 (-1) 2 (by decide) (by decide) (by norm_num)
  rw [heq, hz1 (by norm_num), hp2 (by norm_num)]
  norm_num

/-! ## Backtester helper lemmas -/

theorem list_sum_rat_cast (xs : List ℚ) :
    (xs.map (fun q : ℚ => (q : ℝ))).sum = ((xs.sum : ℚ) : ℝ) := by
  induction xs with
  | nil => simp
  | cons a t ih =>
    rw [List.map_cons, List.sum_cons, List.sum_cons, ih]
    push_cast
    ring

theorem dev_sq_sum_nonneg (xs : List ℚ) :
    0 ≤ PairTradingBacktester.dev_sq_sum xs := by
  unfold PairTradingBacktester.dev_sq_sum
  apply List.sum_nonneg
  intro x hx
  obtain ⟨y, _, rfl⟩ := List.mem_map.mp hx
  positivity

theorem np_std_rat_cast (xs : List ℚ) :
    LivePairTrader.np_std (xs.map (fun q : ℚ => (q : ℝ)))
      = Real.sqrt (((PairTradingBacktester.dev_sq_sum xs
          / (xs.length : ℚ) : ℚ)) : ℝ) := by
  have hmean : LivePairTrader.np_mean (xs.map (fun q : ℚ => (q : ℝ)))
      = ((PairTradingBacktester.mean_q xs : ℚ) : ℝ) := by
    unfold LivePairTrader.np_mean PairTradingBacktester.mean_q
    rw [list_sum_rat_cast, List.length_map]
    rw [Rat.cast_div, Rat.cast_natCast]
  unfold LivePairTrader.np_std
  rw [hmean, List.length_map]
  congr 1
  have hmap : (xs.map (fun q : ℚ => (q : ℝ))).map
      (fun y => (y - ((PairTradingBacktester.mean_q xs : ℚ) : ℝ)) ^ 2)
      = (xs.map (fun x => (x - PairTradingBacktester.mean_q xs) ^ 2)).map
          (fun q : ℚ => (q : ℝ)) := by
    rw [List.map_map, List.map_map]
    congr 1
    funext q
    simp only [Function.comp_apply]
    push_cast
    ring
  rw [hmap, list_sum_rat_cast]
  unfold PairTradingBacktester.dev_sq_sum
  rw [Rat.cast_div, Rat.cast_natCast]

/-! ## C6 — standard-deviation convention -/

/-- C6 counterexample: on the concrete 20-sample window of nineteen
`1`s and one `3`, the backtester's rolling `ratio_std`
(`rolling(20).std()`, pandas sample convention, divisor 19) differs
from the population standard deviation (divisor 20) the claim asserts:
`√(1/5) ≠ √(19/100)`. -/
theorem rolling_std_convention_counterexample :
    PairTradingBacktester.rolling_ratio_std (List.replicate 19 (1 : ℚ) ++ [3])
      ≠ PairTradingBacktester.spec_population_std
          (List.replicate 19 (1 : ℚ) ++ [3]) := by
  have h1 : PairTradingBacktester.sampleVar (List.replicate 19 (1 : ℚ) ++ [3])
      = 1 / 5 := by
    norm_num [PairTradingBacktester.sampleVar, PairTradingBacktester.dev_sq_sum,
      PairTradingBacktester.mean_q, List.replicate]
  have h2 : PairTradingBacktester.dev_sq_sum (List.replicate 19 (1 : ℚ) ++ [3])
      / (((List.replicate 19 (1 : ℚ) ++ [3]).length : ℚ)) = 19 / 100 := by
    norm_num [PairTradingBacktester.dev_sq_sum, PairTradingBacktester.mean_q,
      List.replicate]
  unfold PairTradingBacktester.rolling_ratio_std
    PairTradingBacktester.spec_population_std
  rw [h1, h2]
  have hlt : ((19 / 100 : ℚ) : ℝ) < ((1 / 5 : ℚ) : ℝ) := by
    push_cast
    norm_num
  exact ne_of_gt (Real.sqrt_lt_sqrt (by positivity) hlt)

/-- C6 (amended): the two deviation-sum identities pinning the divisor
convention of each side — the backtester's rolling `ratio_std`
(pandas `rolling(20).std()`) satisfies `std² · (n−1) = Σ(x−mean)²`
(sample convention, divisor `n−1`), while the live trader's `np.std`
satisfies `std² · n = Σ(x−mean)²` (population convention, divisor `n`).
The spec's assertion that both are population holds only for the live
trader. -/
theorem std_divisor_conventions (xs : List ℚ) (h : 2 ≤ xs.length) :
    PairTradingBacktester.rolling_ratio_std xs ^ 2 * ((xs.length : ℝ) - 1)
        = ((PairTradingBacktester.dev_sq_sum xs : ℚ) : ℝ) ∧
    LivePairTrader.np_std (xs.map (fun q : ℚ => (q : ℝ))) ^ 2 * (xs.length : ℝ)
        = ((PairTradingBacktester.dev_sq_sum xs : ℚ) : ℝ) := by
  have hdev := dev_sq_sum_nonneg xs
  have hlen1 : (1 : ℚ) ≤ (xs.length : ℚ) - 1 := by
    have : (2 : ℚ) ≤ (xs.length : ℚ) := by exact_mod_cast h
    linarith
  have hlenR : ((xs.length : ℝ)) - 1 ≠ 0 := by
    have : (2 : ℝ) ≤ (xs.length : ℝ) := by exact_mod_cast h
    intro hc
    linarith
  have hlenR0 : ((xs.length : ℝ)) ≠ 0 := by
    have : (2 : ℝ) ≤ (xs.length : ℝ) := by exact_mod_cast h
    intro hc
    linarith
  constructor
  · unfold PairTradingBacktester.rolling_ratio_std
    rw [Real.sq_sqrt]
    · unfold PairTradingBacktester.sampleVar
      push_cast
      field_simp
    · unfold PairTradingBacktester.sampleVar
      have : (0 : ℚ) ≤ PairTradingBacktester.dev_sq_sum xs / ((xs.length : ℚ) - 1) :=
        div_nonneg hdev (by linarith)
      exact_mod_cast this
  · rw [np_std_rat_cast, Real.sq_sqrt]
    · push_cast
      field_simp
    · have : (0 : ℚ) ≤ PairTradingBacktester.dev_sq_sum xs / (xs.length : ℚ) :=
        div_nonneg hdev (by positivity)
      exact_mod_cast this

/-- Witness for C6 (amended) at the window `[1, 3]`: the backtester's
rolling std squares to `2` (divisor `n−1 = 1`) while numpy's
population std squares to `1` (divisor `n = 2`). -/
theorem std_divisor_conventions_witness :
    PairTradingBacktester.rolling_ratio_std [(1 : ℚ), 3] ^ 2 = 2 ∧
    LivePairTrader.np_std ([(1 : ℚ), 3].map (fun q : ℚ => (q : ℝ))) ^ 2 = 1 := by
  obtain ⟨ha, hb⟩ := std_divisor_conventions [(1 : ℚ), 3] (by decide)
  have hdev : PairTradingBacktester.dev_sq_sum [(1 : ℚ), 3] = 2 := by
    norm_num [PairTradingBacktester.dev_sq_sum, PairTradingBacktester.mean_q]
  rw [hdev] at ha hb
  have hlen : (([(1 : ℚ), 3].length : ℝ)) = 2 := by norm_num
  have hc : ((2 : ℚ) : ℝ) = 2 := by norm_num
  rw [hlen, hc] at ha hb
  constructor
  · linarith
  · linarith

/-! ## C4 — backtest no-data failure -/

theorem length_insertSorted (n : ℕ) (l : List ℕ) :
    (PairTradingBacktester.insertSorted n l).length = l.length + 1 := by
  induction l with
  | nil => rfl
  | cons m ms ih =>
    unfold PairTradingBacktester.insertSorted
    by_cases h : n ≤ m
    · simp [h]
    · simp [h, ih]

theorem length_sortNat (l : List ℕ) :
    (PairTradingBacktester.sortNat l).length = l.length := by
  induction l with
  | nil => rfl
  | cons m ms ih =>
    unfold PairTradingBacktester.sortNat at ih ⊢
    rw [List.foldr_cons, length_insertSorted, ih, List.length_cons]

theorem get_pair_data_eq_nil_iff (s1 s2 : PairTradingBacktester.Series) :
    PairTradingBacktester.get_pair_data s1 s2 = [] ↔ (s1 = [] ∨ s2 = []) := by
  constructor
  · intro h
    by_contra hc
    push_neg at hc
    obtain ⟨h1, h2⟩ := hc
    have hie : (s1.isEmpty || s2.isEmpty) = false := by
      cases s1 with
      | nil => exact absurd rfl h1
      | cons a t =>
        cases s2 with
        | nil => exact absurd rfl h2
        | cons b u => rfl
    unfold PairTradingBacktester.get_pair_data at h
    rw [hie] at h
    simp only [Bool.false_eq_true, if_false] at h
    have hlen := congrArg List.length h
    rw [List.length_mapIdx] at hlen
    simp only [List.length_nil] at hlen
    unfold PairTradingBacktester.unionIndex at hlen
    rw [length_sortNat] at hlen
    have hd : ((s1.map Prod.fst ++ s2.map Prod.fst).dedup) = [] :=
      List.length_eq_zero.mp hlen
    rw [List.dedup_eq_nil] at hd
    obtain ⟨ha, _⟩ := List.append_eq_nil.mp hd
    exact h1 (List.map_eq_nil_iff.mp ha)
  · intro h
    unfold PairTradingBacktester.get_pair_data
    rcases h with h | h <;> subst h <;> simp

/-- C4 counterexample: two series that each have a bar but share no
common timestamp — `[(0, 1)]` and `[(1, 2)]` — do *not* produce the
empty "no data" result: the outer-join alignment yields two NaN-ratio
rows, the trading loop runs over them (recording two NaN portfolio
values), and a non-empty portfolio is returned. -/
theorem backtest_no_overlap_counterexample :
    PairTradingBacktester.backtest_mean_reversion [(0, 1)] [(1, 2)] 100
        (3 / 2) (1 / 4)
      = some { cash := some 0, u1 := some 50, u2 := none, trade_count := 0,
               values := [none, none] } := by
  have hrows : PairTradingBacktester.get_pair_data [(0, 1)] [(1, 2)] =
      [{ ts := 0, p1 := some 1, p2 := none, ratio := none, win := none },
       { ts := 1, p1 := none, p2 := some 2, ratio := none, win := none }] := by
    simp [PairTradingBacktester.get_pair_data, PairTradingBacktester.unionIndex,
      PairTradingBacktester.sortNat, PairTradingBacktester.insertSorted,
      PairTradingBacktester.atTime, odiv, PairTradingBacktester.rollingWindow,
      List.mapIdx_cons, List.dedup]
  rw [PairTradingBacktester.backtest_mean_reversion, hrows]
  simp [PairTradingBacktester.bt_loop, PairTradingBacktester.bt_bar,
    PairTradingBacktester.bt_init, PairTradingBacktester.calculate_position_sizes,
    odiv, omul, oadd, osub, PairTradingBacktester.Row.z, List.enum,
    List.enumFrom]

/-- C4 (amended): `backtest_mean_reversion` returns the empty result
(`{}`, "No data available for backtesting") *iff* one of the two input
series is entirely empty.  Two non-empty series with no overlapping
timestamps still produce a non-empty run: pandas aligns them on the
union of their indexes with NaN fills, so the aligned frame is
non-empty and the trading loop runs (every z-score is NaN, so no trade
ever executes, as the counterexample shows). -/
theorem backtest_no_data_iff (s1 s2 : PairTradingBacktester.Series)
    (C threshold pct : ℚ) :
    PairTradingBacktester.backtest_mean_reversion s1 s2 C threshold pct = none
      ↔ (s1 = [] ∨ s2 = []) := by
  rw [← get_pair_data_eq_nil_iff s1 s2]
  unfold PairTradingBacktester.backtest_mean_reversion
  cases hg : PairTradingBacktester.get_pair_data s1 s2 with
  | nil => simp
  | cons r rest => simp

/-! ## C5 — backtester initial sizing -/

/-- C5 counterexample: with `initial_capital = 200` and bar-0 prices
`(2, 4)`, the backtester holds `25 = 50/2` units of symbol1 and
`12.5 = 50/4` units of symbol2 with cash `0` — not the claimed
`0.5·200/2 = 50` and `0.5·200/4 = 25` units: initialization invests a
fixed `$50` per leg, not 50% of `initial_capital`. -/
theorem backtest_initial_sizing_counterexample :
    PairTradingBacktester.backtest_mean_reversion [(0, 2)] [(0, 4)] 200
        (3 / 2) (1 / 4)
      = some { cash := some 0, u1 := some 25, u2 := some (25 / 2),
               trade_count := 0, values := [some 100] } ∧
    (25 : ℚ) ≠ (1 / 2) * 200 / 2 ∧ (25 / 2 : ℚ) ≠ (1 / 2) * 200 / 4 := by
  refine ⟨?_, by norm_num, by norm_num⟩
  have hrows : PairTradingBacktester.get_pair_data [(0, 2)] [(0, 4)] =
      [{ ts := 0, p1 := some 2, p2 := some 4, ratio := some (1 / 2),
         win := none }] := by
    simp [PairTradingBacktester.get_pair_data, PairTradingBacktester.unionIndex,
      PairTradingBacktester.sortNat, PairTradingBacktester.insertSorted,
      PairTradingBacktester.atTime, odiv, PairTradingBacktester.rollingWindow,
      List.mapIdx_cons, List.dedup]
    norm_num
  rw [PairTradingBacktester.backtest_mean_reversion, hrows]
  simp [PairTradingBacktester.bt_loop, PairTradingBacktester.bt_bar,
    PairTradingBacktester.bt_init, PairTradingBacktester.calculate_position_sizes,
    odiv, omul, oadd, osub, PairTradingBacktester.Row.z, List.enum,
    List.enumFrom]
  norm_num

/-- C5 (amended): for any bar-0 row with finite non-zero prices, the
backtester's initialization allocates a fixed `$50` to each leg —
`50/p1` units of symbol1 and `50/p2` units of symbol2 — and sets cash
to `0` unconditionally, independent of `initial_capital`.  (This equals
"50% of initial capital per leg" only when `initial_capital = 100`,
the constructor default.) -/
theorem bt_init_sizing (r0 : PairTradingBacktester.Row) (p1 p2 : ℚ)
    (h1 : r0.p1 = some p1) (h2 : r0.p2 = some p2)
    (hp1 : p1 ≠ 0) (hp2 : p2 ≠ 0) :
    (PairTradingBacktester.bt_init r0).u1 = some (50 / p1) ∧
    (PairTradingBacktester.bt_init r0).u2 = some (50 / p2) ∧
    (PairTradingBacktester.bt_init r0).cash = some 0 ∧
    (PairTradingBacktester.bt_init r0).trade_count = 0 := by
  unfold PairTradingBacktester.bt_init
    PairTradingBacktester.calculate_position_sizes
  simp [h1, h2, odiv, hp1, hp2]

/-- Witness for C5 (amended): bar-0 prices `(2, 4)` yield `25` units of
the first leg and zero cash. -/
theorem bt_init_sizing_witness :
    (PairTradingBacktester.bt_init ⟨0, some 2, some 4, some (1 / 2), none⟩).u1
        = some 25 ∧
    (PairTradingBacktester.bt_init ⟨0, some 2, some 4, some (1 / 2), none⟩).cash
        = some 0 := by
  obtain ⟨hu1, _, hc, _⟩ := bt_init_sizing ⟨0, some 2, some 4, some (1 / 2), none⟩
    2 4 rfl rfl (by norm_num) (by norm_num)
  refine ⟨?_, hc⟩
  rw [hu1]
  norm_num

/-! ## C7 — annualized volatility formula -/

theorem zip_map_some_odiv (l1 l2 : List ℚ) (h : ∀ v ∈ l2, v ≠ 0) :
    ((l1.map some).zip (l2.map some)).map
        (fun bp => odiv (osub bp.1 bp.2) bp.2)
      = (l1.zip l2).map (fun bp : ℚ × ℚ => some ((bp.1 - bp.2) / bp.2)) := by
  induction l1 generalizing l2 with
  | nil => simp
  | cons a t ih =>
    cases l2 with
    | nil => simp
    | cons b u =>
      have hb : b ≠ 0 := h b (List.mem_cons_self _ _)
      have hu : ∀ v ∈ u, v ≠ 0 := fun v hv => h v (List.mem_cons_of_mem _ hv)
      simp only [List.map_cons, List.zip_cons_cons]
      rw [ih u hu]
      simp [osub, odiv, hb]

theorem filterMap_id_map_some {α β : Type} (f : α → β) (l : List α) :
    List.filterMap id (l.map (fun x => some (f x))) = l.map f := by
  induction l with
  | nil => rfl
  | cons a t ih => simp [List.filterMap_cons, ih]

theorem pct_change_map_some (vs : List ℚ) (hnz : ∀ v ∈ vs, v ≠ 0) :
    (PairTradingBacktester.pct_change (vs.map some)).filterMap id
      = PairTradingBacktester.returns_q vs := by
  unfold PairTradingBacktester.pct_change PairTradingBacktester.returns_q
  rw [show (vs.map some).tail = vs.tail.map some from (List.map_tail _ _).symm]
  rw [zip_map_some_odiv _ _ hnz]
  rw [List.filterMap_cons_none rfl]
  exact filterMap_id_map_some _ _

/-- C7 counterexample: on the synthetic portfolio value series
`[1000, 1050, 1020]`, the reported volatility (factor `√24`) differs
from the claimed annualized volatility with periods-per-year `24·365`
(factor `√8760`). -/
theorem analyze_volatility_counterexample :
    PairTradingBacktester.analyze_volatility_pct [some 1000, some 1050, some 1020]
      ≠ PairTradingBacktester.spec_volatility_pct
          [some 1000, some 1050, some 1020] := by
  have hret : (PairTradingBacktester.pct_change
        [some 1000, some 1050, some 1020]).filterMap id
      = [1 / 20, -1 / 35] := by
    norm_num [PairTradingBacktester.pct_change, osub, odiv,
      List.filterMap_cons]
  have hsv : PairTradingBacktester.sampleVar [1 / 20, -1 / 35] = 121 / 39200 := by
    norm_num [PairTradingBacktester.sampleVar, PairTradingBacktester.dev_sq_sum,
      PairTradingBacktester.mean_q]
  unfold PairTradingBacktester.analyze_volatility_pct
    PairTradingBacktester.spec_volatility_pct
  rw [hret]
  unfold PairTradingBacktester.series_std
  rw [if_neg (by norm_num), hsv]
  simp only [Option.map_some', ne_eq, Option.some.injEq]
  intro h
  have hv : (0 : ℝ) < ((121 / 39200 : ℚ) : ℝ) := by
    have : (0 : ℚ) < 121 / 39200 := by norm_num
    exact_mod_cast this
  have hs : 0 < Real.sqrt ((121 / 39200 : ℚ) : ℝ) := Real.sqrt_pos.mpr hv
  have h24 : Real.sqrt 24 < Real.sqrt (24 * 365) :=
    Real.sqrt_lt_sqrt (by norm_num) (by norm_num)
  have hmul : Real.sqrt ((121 / 39200 : ℚ) : ℝ) * Real.sqrt 24
      < Real.sqrt ((121 / 39200 : ℚ) : ℝ) * Real.sqrt (24 * 365) :=
    mul_lt_mul_of_pos_left h24 hs
  linarith

/-- C7 (amended): for an all-finite, all-non-zero portfolio value
series with at least two period-over-period changes, the reported
`volatility_pct` equals the *sample* standard deviation of the
percentage changes multiplied by `√24` — not `√(24·365)` — times
`100`. -/
theorem analyze_volatility_formula (vs : List ℚ) (hnz : ∀ v ∈ vs, v ≠ 0)
    (hlen : 2 ≤ (PairTradingBacktester.returns_q vs).length) :
    PairTradingBacktester.analyze_volatility_pct (vs.map some)
      = some (Real.sqrt (((PairTradingBacktester.dev_sq_sum
              (PairTradingBacktester.returns_q vs)
            / (((PairTradingBacktester.returns_q vs).length : ℚ) - 1) : ℚ)) : ℝ)
          * Real.sqrt 24 * 100) := by
  unfold PairTradingBacktester.analyze_volatility_pct
  rw [pct_change_map_some vs hnz]
  unfold PairTradingBacktester.series_std
  rw [if_neg (by omega)]
  rfl

/-- Witness for C7 (amended) on the spec's synthetic series
`[1000, 1050, 1020]`: the reported volatility is
`√(121/39200) · √24 · 100`. -/
theorem analyze_volatility_formula_witness :
    PairTradingBacktester.analyze_volatility_pct
        ([(1000 : ℚ), 1050, 1020].map some)
      = some (Real.sqrt ((121 / 39200 : ℚ) : ℝ) * Real.sqrt 24 * 100) := by
  have hret : PairTradingBacktester.returns_q [(1000 : ℚ), 1050, 1020]
      = [1 / 20, -1 / 35] := by
    norm_num [PairTradingBacktester.returns_q]
  have hnz : ∀ v ∈ [(1000 : ℚ), 1050, 1020], v ≠ 0 := by
    intro v hv
    simp at hv
    rcases hv with rfl | rfl | rfl <;> norm_num
  have h := analyze_volatility_formula [(1000 : ℚ), 1050, 1020] hnz
    (by rw [hret]; norm_num)
  rw [h, hret]
  have hval : PairTradingBacktester.dev_sq_sum [(1 / 20 : ℚ), -1 / 35]
      / ((([(1 / 20 : ℚ), -1 / 35].length : ℚ)) - 1) = 121 / 39200 := by
    norm_num [PairTradingBacktester.dev_sq_sum, PairTradingBacktester.mean_q]
  rw [hval]

end Mine
